import Mathlib

/-!
Shallow embedding of the mint server core (src/src/server.js and
src/unnamed/part_000): the deposit classifier, the seen-set, the mints
(entitlement) table with its two UNIQUE columns, `mintAndSend`, and the
per-deposit processing step of `scanForPayments`, together with theorems
about the exactly-once and error-handling behaviour of these operations.
-/

namespace MintID

/-- One (unit, quantity) entry of a UTxO value breakdown, as returned by the
ledger index (`u.amount[i]`).  The JS code parses `quantity` with `BigInt`;
we embed the parsed integer directly. -/
structure Amount where
  unit : String
  quantity : Int
  deriving Repr, DecidableEq

/-- A deposit as observed by `scanForPayments`: `u.tx_hash`, `u.output_index`
and the value breakdown `u.amount`. -/
structure Utxo where
  tx_hash : String
  output_index : Nat
  amount : List Amount
  deriving Repr, DecidableEq

/-- One row of the `mints` table.  `stake_key` and `paid_tx` are UNIQUE
columns; `minted_tx` and `asset_name` are NULL until fulfilment. -/
structure MintRow where
  stake_key : String
  payer_address : String
  paid_tx : String
  minted_tx : Option String
  asset_name : Option String
  deriving Repr, DecidableEq

/-- The `mints` table, in insertion order. -/
abbrev Mints := List MintRow

/-- The two durable stores: the `mints` table and the `seen_utxos` table
(the latter a list of deposit identifiers, PRIMARY KEY `utxo`). -/
structure DBState where
  mints : Mints
  seen : List String
  deriving Repr, DecidableEq

/-- The query `SELECT 1 FROM mints WHERE stake_key=?` (the pre-check in
`scanForPayments` and the UNIQUE(stake_key) constraint). -/
def mintsHasStake (m : Mints) (sk : String) : Bool :=
  m.any fun r => r.stake_key == sk

/-- Existence of a row with the given `paid_tx` (the UNIQUE(paid_tx)
constraint). -/
def mintsHasPaidTx (m : Mints) (tx : String) : Bool :=
  m.any fun r => r.paid_tx == tx

/-- Number of rows of the `mints` table carrying the given stake key. -/
def countStake (m : Mints) (sk : String) : Nat :=
  (m.filter fun r => r.stake_key == sk).length

/-- The write `INSERT OR IGNORE INTO mints (stake_key, payer_address, paid_tx)`:
the row is inserted only when neither UNIQUE column conflicts; the second
component is `res.changes` (0 or 1). -/
def insertOrIgnoreMint (m : Mints) (sk pa tx : String) : Mints × Nat :=
  if mintsHasStake m sk || mintsHasPaidTx m tx then (m, 0)
  else (m ++ [⟨sk, pa, tx, none, none⟩], 1)

/-- The write `UPDATE mints SET minted_tx=?, asset_name=? WHERE paid_tx=?` — the
fulfilment update inside `mintAndSend`; the spec names it `markFulfilled`. -/
def markFulfilled (m : Mints) (txHash assetName paidTx : String) : Mints :=
  m.map fun r =>
    if r.paid_tx == paidTx then
      { r with minted_tx := some txHash, asset_name := some assetName }
    else r

/-- The write `INSERT OR IGNORE INTO seen_utxos (utxo) VALUES (?)`. -/
def insertSeen (s : List String) (id : String) : List String :=
  if s.contains id then s else s ++ [id]

/-- The deposit identifier `${u.tx_hash}#${u.output_index}`. -/
def utxoId (u : Utxo) : String :=
  u.tx_hash ++ "#" ++ toString u.output_index

/-- The deposit classifier of `scanForPayments`:
`onlyLovelace = u.amount.length === 1 && u.amount[0].unit === 'lovelace'`,
`qty = onlyLovelace ? BigInt(u.amount[0].quantity) : 0n`, and the deposit
qualifies iff `onlyLovelace && qty === PRICE`. -/
def qualifies (PRICE : Int) (u : Utxo) : Bool :=
  let onlyLovelace := u.amount.length == 1 &&
    (match u.amount with
     | a :: _ => a.unit == "lovelace"
     | [] => false)
  let qty : Int :=
    if onlyLovelace then
      match u.amount with
      | a :: _ => a.quantity
      | [] => 0
    else 0
  onlyLovelace && (qty == PRICE)

/-- The function `mintAndSend(payerAddress, stakeKey, paidTx)`.  The externals are
parameters: `issue` is the outcome of the build/sign/submit sequence
(`none` = it throws, `some h` = submitted hash `h`); `design` is the design
name picked by `pickRandomDesign`.  The result pairs the `mints` state left
behind (DB writes persist across a throw) with either `Except.error ()`
(the JS exception) or `Except.ok mt` (`mt = none` is the early `return` of
the duplicate branch, which selects no design and invokes no issuance). -/
def mintAndSend (issue : Option String) (design : String) (m : Mints)
    (payerAddress stakeKey paidTx : String) :
    Mints × Except Unit (Option String) :=
  let res := insertOrIgnoreMint m stakeKey payerAddress paidTx
  if res.2 == 0 then (res.1, Except.ok none)
  else
    match issue with
    | none => (res.1, Except.error ())
    | some txHash =>
        (markFulfilled res.1 txHash design paidTx, Except.ok (some txHash))

/-- Outcome of the input-lookup call
`fetchJson(/txs/tx_hash/utxos)` followed by `txUtxos?.inputs?.[0]?.address`:
a non-2xx response makes `fetchJson` throw (`transportError`), otherwise the
first-input address is extracted (possibly absent). -/
inductive ResolveOutcome where
  | transportError
  | ok (firstInputAddr : Option String)
  deriving Repr, DecidableEq

/-- Per-deposit behaviour of the external collaborators during one step of
the scan loop: the resolution outcome, the build/sign/submit outcome inside
`mintAndSend` (`none` = throws) and the randomly picked design name. -/
structure DepositEnv where
  resolve : ResolveOutcome
  issue : Option String
  design : String
  deriving Repr, DecidableEq

/-- What one loop iteration of `scanForPayments` did with a deposit. -/
inductive StepOutcome where
  /-- A `seen` row existed: `continue` before any other work. -/
  | skippedSeen
  /-- The classifier rejected; marked seen. -/
  | seenNotQualify
  /-- The input-lookup `fetchJson` threw: the exception leaves the `for` loop
  and is caught by the outer `catch` of `scanForPayments`. -/
  | abortResolve
  /-- No first-input address; marked seen. -/
  | seenNoPayer
  /-- Function `getStakeKeyFromAddr` returned null; marked seen. -/
  | seenNoStakeKey
  /-- The pre-check `SELECT 1 FROM mints WHERE stake_key=?` hit; marked seen. -/
  | seenAlreadyEntitled
  /-- Call to `mintAndSend` returned normally (`none` = its duplicate branch);
  marked seen. -/
  | seenProcessed (mintedTx : Option String)
  /-- Call to `mintAndSend` threw; caught by the per-deposit `catch`, which only
  logs: the deposit is NOT marked seen. -/
  | mintFailed
  deriving Repr, DecidableEq

/-- Whether the outcome aborts the remainder of the page (the exception
propagates out of the `for` loop to the outer `catch`). -/
def stepAborts : StepOutcome → Bool
  | .abortResolve => true
  | _ => false

/-- Whether the step invoked the external issuance action (reached the
transaction build inside `mintAndSend`). -/
def issuanceInvoked : StepOutcome → Bool
  | .seenProcessed (some _) => true
  | .mintFailed => true
  | _ => false

/-- One iteration of the `for` loop of `scanForPayments` on deposit `u`,
in source order: seen-check, classifier, input lookup, first-input address,
`getStakeKeyFromAddr` (embedded as the pure map `stakeKeyOf`), the
one-per-stake pre-check, then `mintAndSend` wrapped in the per-deposit
`try` whose `catch` only logs (so a throw skips the seen-insert). -/
def processDeposit (stakeKeyOf : String → Option String) (PRICE : Int)
    (env : DepositEnv) (st : DBState) (u : Utxo) : DBState × StepOutcome :=
  let uid := utxoId u
  if st.seen.contains uid then (st, .skippedSeen)
  else if !(qualifies PRICE u) then
    ({ st with seen := insertSeen st.seen uid }, .seenNotQualify)
  else
    match env.resolve with
    | .transportError => (st, .abortResolve)
    | .ok none =>
        ({ st with seen := insertSeen st.seen uid }, .seenNoPayer)
    | .ok (some payerAddr) =>
        match stakeKeyOf payerAddr with
        | none =>
            ({ st with seen := insertSeen st.seen uid }, .seenNoStakeKey)
        | some stakeKey =>
            if mintsHasStake st.mints stakeKey then
              ({ st with seen := insertSeen st.seen uid },
               .seenAlreadyEntitled)
            else
              let r := mintAndSend env.issue env.design st.mints
                payerAddr stakeKey u.tx_hash
              match r.2 with
              | .error _ => ({ st with mints := r.1 }, .mintFailed)
              | .ok mt =>
                  ({ mints := r.1, seen := insertSeen st.seen uid },
                   .seenProcessed mt)

/-- The `for` loop of `scanForPayments` over one fetched page: each deposit
is processed in order; an aborting step (resolution transport error) ends
the loop — the exception is swallowed by the outer `catch` — and later
deposits of the page are not examined.  Returns the final state and the
outcomes of the deposits actually examined. -/
def scanPage (stakeKeyOf : String → Option String) (PRICE : Int) :
    DBState → List (Utxo × DepositEnv) → DBState × List (Utxo × StepOutcome)
  | st, [] => (st, [])
  | st, (u, env) :: rest =>
      let r := processDeposit stakeKeyOf PRICE env st u
      if stepAborts r.2 then (r.1, [(u, r.2)])
      else
        let rr := scanPage stakeKeyOf PRICE r.1 rest
        (rr.1, (u, r.2) :: rr.2)

/-- Repeated poll cycles: `scanForPayments` run on each page in turn
(`setInterval(scanForPayments, POLL_MS)`). -/
def runPasses (stakeKeyOf : String → Option String) (PRICE : Int) :
    DBState → List (List (Utxo × DepositEnv)) → DBState
  | st, [] => st
  | st, p :: ps => runPasses stakeKeyOf PRICE (scanPage stakeKeyOf PRICE st p).1 ps

/-- One invocation of `mintAndSend` together with the behaviour of its
external issuance call and design pick. -/
structure MintCall where
  payerAddress : String
  stakeKey : String
  paidTx : String
  issue : Option String
  design : String
  deriving Repr, DecidableEq

/-- A sequence of `mintAndSend` invocations applied to the `mints` table in
some order (each DB insert is a single atomic write, so any concurrent
interleaving of claim attempts is some such sequence). -/
def runCalls : Mints → List MintCall → Mints × List (Except Unit (Option String))
  | m, [] => (m, [])
  | m, c :: cs =>
      let r := mintAndSend c.issue c.design m c.payerAddress c.stakeKey c.paidTx
      let rest := runCalls r.1 cs
      (rest.1, r.2 :: rest.2)

/-- A `mintAndSend` result that passed the duplicate check: either the
issuance was invoked and succeeded, or it was invoked and threw.  Only the
duplicate branch (`Except.ok none`) invokes no issuance. -/
def isFresh : Except Unit (Option String) → Bool
  | .ok none => false
  | _ => true

/-! ### Basic lemmas about the store operations -/

theorem insertSeen_contains_self (s : List String) (id : String) :
    (insertSeen s id).contains id = true := by
  unfold insertSeen
  split
  · assumption
  · simp

theorem markFulfilled_hasStake (m : Mints) (a b c sk : String) :
    mintsHasStake (markFulfilled m a b c) sk = mintsHasStake m sk := by
  unfold mintsHasStake markFulfilled
  induction m with
  | nil => rfl
  | cons r t ih =>
      simp only [List.map_cons, List.any_cons] at *
      rw [ih]
      congr 1
      split <;> rfl

theorem markFulfilled_countStake (m : Mints) (a b c sk : String) :
    countStake (markFulfilled m a b c) sk = countStake m sk := by
  unfold countStake markFulfilled
  induction m with
  | nil => rfl
  | cons r t ih =>
      simp only [List.map_cons, List.filter_cons] at *
      by_cases h : (r.paid_tx == c) = true
      · simp only [h, if_true]
        by_cases h2 : (r.stake_key == sk) = true
        · simp only [h2, if_pos]
          simp only [List.length_cons, ih]
        · simp only [h2]
          simpa using ih
      · simp only [h, if_false, Bool.false_eq_true] at *
        by_cases h2 : (r.stake_key == sk) = true
        · simp only [h2, if_pos, List.length_cons, ih]
        · simp only [h2]
          simpa using ih

theorem countStake_of_not_hasStake (m : Mints) (sk : String)
    (h : mintsHasStake m sk = false) : countStake m sk = 0 := by
  unfold mintsHasStake at h
  unfold countStake
  simp only [List.any_eq_false] at h
  rw [List.filter_eq_nil_iff.mpr]
  · rfl
  · intro r hr
    simpa using h r hr

theorem countStake_append_self (m : Mints) (sk pa tx : String) :
    countStake (m ++ [⟨sk, pa, tx, none, none⟩]) sk = countStake m sk + 1 := by
  unfold countStake
  simp

theorem mintsHasStake_append_self (m : Mints) (sk pa tx : String) :
    mintsHasStake (m ++ [⟨sk, pa, tx, none, none⟩]) sk = true := by
  unfold mintsHasStake
  simp

/-- The duplicate branch of `mintAndSend`: a conflicting UNIQUE column makes
the `INSERT OR IGNORE` a no-op (`res.changes === 0`) and the function
returns before selecting a design or touching the issuance collaborator. -/
theorem mintAndSend_duplicate (issue : Option String) (design : String)
    (m : Mints) (pa sk ptx : String)
    (h : mintsHasStake m sk = true ∨ mintsHasPaidTx m ptx = true) :
    mintAndSend issue design m pa sk ptx = (m, Except.ok none) := by
  unfold mintAndSend insertOrIgnoreMint
  rcases h with h | h <;> simp [h]

/-- The fresh branch of `mintAndSend`: with both UNIQUE columns free the
row is inserted in pending state; on issuance success it is updated by
`markFulfilled`, on an issuance throw it is left pending and the exception
propagates. -/
theorem mintAndSend_fresh (issue : Option String) (design : String)
    (m : Mints) (pa sk ptx : String)
    (h1 : mintsHasStake m sk = false) (h2 : mintsHasPaidTx m ptx = false) :
    mintAndSend issue design m pa sk ptx =
      match issue with
      | none => (m ++ [⟨sk, pa, ptx, none, none⟩], Except.error ())
      | some txHash =>
          (markFulfilled (m ++ [⟨sk, pa, ptx, none, none⟩]) txHash design ptx,
           Except.ok (some txHash)) := by
  unfold mintAndSend insertOrIgnoreMint
  simp [h1, h2]

/-! ### Claim theorems -/

/-- C2: the deposit classifier is a pure predicate that accepts exactly the
deposits whose value breakdown is the single entry
(unit = "lovelace", quantity = PRICE): one pair, base currency, exact
price; any second entry or different quantity is rejected. -/
theorem classifier_qualifies_iff (PRICE : Int) (u : Utxo) :
    qualifies PRICE u = true ↔
      u.amount = [{ unit := "lovelace", quantity := PRICE }] := by
  unfold qualifies
  cases h : u.amount with
  | nil => simp
  | cons a t =>
      cases t with
      | nil =>
          cases a with
          | mk au aq =>
              by_cases hu : au = "lovelace" <;>
                by_cases hq : aq = PRICE <;>
                  simp [hu, hq, Amount.mk.injEq]
      | cons b t2 => simp

/-- C7: `markFulfilled` (the `UPDATE mints SET minted_tx=?, asset_name=?
WHERE paid_tx=?` inside `mintAndSend`) is idempotent: applying it twice
with the same fulfilment transaction id and payload leaves the table as
after one application. -/
theorem markFulfilled_idempotent (m : Mints) (txHash assetName paidTx : String) :
    markFulfilled (markFulfilled m txHash assetName paidTx) txHash assetName paidTx
      = markFulfilled m txHash assetName paidTx := by
  unfold markFulfilled
  induction m with
  | nil => rfl
  | cons r t ih =>
      simp only [List.map_cons, List.cons.injEq]
      refine ⟨?_, ih⟩
      by_cases h : (r.paid_tx == paidTx) = true <;> simp [h]

/-- Once a row with stake key `sk` exists, every further `mintAndSend` call
for `sk` takes the duplicate branch: no state change, no issuance. -/
theorem runCalls_stuck (m : Mints) (sk : String)
    (hst : mintsHasStake m sk = true) :
    ∀ (cs : List MintCall), (∀ c ∈ cs, c.stakeKey = sk) →
      runCalls m cs = (m, cs.map fun _ => Except.ok none) := by
  intro cs
  induction cs with
  | nil => intro _; rfl
  | cons c t ih =>
      intro hall
      have hc : c.stakeKey = sk := hall c (List.mem_cons_self c t)
      have hd : mintAndSend c.issue c.design m c.payerAddress c.stakeKey c.paidTx
          = (m, Except.ok none) := by
        apply mintAndSend_duplicate
        left
        rw [hc]
        exact hst
      have ht := ih (fun x hx => hall x (List.mem_cons_of_mem c hx))
      simp only [runCalls, hd, ht, List.map_cons]

/-- C1: for any number of claim attempts for the same identity `sk`,
applied in any order to a table not yet containing `sk` (and whose
originating transactions are not yet claimed), exactly one attempt passes
the `INSERT OR IGNORE`, every other attempt returns through the duplicate
branch with no state change and no issuance, and the final table holds
exactly one row for `sk`. -/
theorem claim_exactly_once (m : Mints) (sk : String) (cs : List MintCall)
    (hne : cs ≠ [])
    (hall : ∀ c ∈ cs, c.stakeKey = sk)
    (hstake : mintsHasStake m sk = false)
    (hpaid : ∀ c ∈ cs, mintsHasPaidTx m c.paidTx = false) :
    ((runCalls m cs).2.filter isFresh).length = 1
    ∧ (runCalls m cs).2.tail = cs.tail.map (fun _ => Except.ok none)
    ∧ countStake (runCalls m cs).1 sk = 1 := by
  cases cs with
  | nil => exact absurd rfl hne
  | cons c t =>
      have hc : c.stakeKey = sk := hall c (List.mem_cons_self c t)
      have hp : mintsHasPaidTx m c.paidTx = false :=
        hpaid c (List.mem_cons_self c t)
      have hs0 : mintsHasStake m c.stakeKey = false := by rw [hc]; exact hstake
      have hz : countStake m sk = 0 := countStake_of_not_hasStake m sk hstake
      have hrowst : mintsHasStake
          (m ++ [⟨c.stakeKey, c.payerAddress, c.paidTx, none, none⟩]) sk = true := by
        rw [hc]
        exact mintsHasStake_append_self m sk c.payerAddress c.paidTx
      have hrowct : countStake
          (m ++ [⟨c.stakeKey, c.payerAddress, c.paidTx, none, none⟩]) sk = 1 := by
        rw [hc, countStake_append_self m sk c.payerAddress c.paidTx, hz]
      have htall : ∀ x ∈ t, x.stakeKey = sk :=
        fun x hx => hall x (List.mem_cons_of_mem c hx)
      cases hi : c.issue with
      | none =>
          have hfresh : mintAndSend c.issue c.design m c.payerAddress c.stakeKey c.paidTx
              = (m ++ [⟨c.stakeKey, c.payerAddress, c.paidTx, none, none⟩],
                 Except.error ()) := by
            rw [hi]
            exact mintAndSend_fresh none c.design m c.payerAddress c.stakeKey c.paidTx hs0 hp
          have hrest := runCalls_stuck _ sk hrowst t htall
          simp only [runCalls, hfresh, hrest, List.tail_cons]
          refine ⟨?_, ?_, hrowct⟩
          · simp [isFresh, List.filter_map]
          · trivial
      | some txHash =>
          have hfresh : mintAndSend c.issue c.design m c.payerAddress c.stakeKey c.paidTx
              = (markFulfilled (m ++ [⟨c.stakeKey, c.payerAddress, c.paidTx, none, none⟩])
                   txHash c.design c.paidTx,
                 Except.ok (some txHash)) := by
            rw [hi]
            exact mintAndSend_fresh (some txHash) c.design m c.payerAddress c.stakeKey c.paidTx hs0 hp
          have hst2 : mintsHasStake
              (markFulfilled (m ++ [⟨c.stakeKey, c.payerAddress, c.paidTx, none, none⟩])
                txHash c.design c.paidTx) sk = true := by
            rw [markFulfilled_hasStake]
            exact hrowst
          have hrest := runCalls_stuck _ sk hst2 t htall
          simp only [runCalls, hfresh, hrest, List.tail_cons]
          refine ⟨?_, ?_, ?_⟩
          · simp [isFresh, List.filter_map]
          · trivial
          · rw [markFulfilled_countStake]
            exact hrowct

/-! ### Branch lemmas for the per-deposit step -/

theorem not_mem_of_contains_eq_false {s : List String} {id : String}
    (h : s.contains id = false) : id ∉ s := by
  simpa using h

theorem processDeposit_skipped (skOf : String → Option String) (PRICE : Int)
    (env : DepositEnv) (st : DBState) (u : Utxo)
    (h : st.seen.contains (utxoId u) = true) :
    processDeposit skOf PRICE env st u = (st, .skippedSeen) := by
  simp only [processDeposit, h, if_true]

theorem processDeposit_notQualify (skOf : String → Option String) (PRICE : Int)
    (env : DepositEnv) (st : DBState) (u : Utxo)
    (h : st.seen.contains (utxoId u) = false)
    (hq : qualifies PRICE u = false) :
    processDeposit skOf PRICE env st u
      = ({ st with seen := insertSeen st.seen (utxoId u) }, .seenNotQualify) := by
  simp [processDeposit, not_mem_of_contains_eq_false h, hq]

theorem processDeposit_abort (skOf : String → Option String) (PRICE : Int)
    (env : DepositEnv) (st : DBState) (u : Utxo)
    (h : st.seen.contains (utxoId u) = false)
    (hq : qualifies PRICE u = true)
    (hres : env.resolve = ResolveOutcome.transportError) :
    processDeposit skOf PRICE env st u = (st, .abortResolve) := by
  simp [processDeposit, not_mem_of_contains_eq_false h, hq, hres]

theorem processDeposit_noPayer (skOf : String → Option String) (PRICE : Int)
    (env : DepositEnv) (st : DBState) (u : Utxo)
    (h : st.seen.contains (utxoId u) = false)
    (hq : qualifies PRICE u = true)
    (hres : env.resolve = ResolveOutcome.ok none) :
    processDeposit skOf PRICE env st u
      = ({ st with seen := insertSeen st.seen (utxoId u) }, .seenNoPayer) := by
  simp [processDeposit, not_mem_of_contains_eq_false h, hq, hres]

theorem processDeposit_noStakeKey (skOf : String → Option String) (PRICE : Int)
    (env : DepositEnv) (st : DBState) (u : Utxo) (a : String)
    (h : st.seen.contains (utxoId u) = false)
    (hq : qualifies PRICE u = true)
    (hres : env.resolve = ResolveOutcome.ok (some a))
    (hsk : skOf a = none) :
    processDeposit skOf PRICE env st u
      = ({ st with seen := insertSeen st.seen (utxoId u) }, .seenNoStakeKey) := by
  simp [processDeposit, not_mem_of_contains_eq_false h, hq, hres, hsk]

theorem processDeposit_alreadyEntitled (skOf : String → Option String) (PRICE : Int)
    (env : DepositEnv) (st : DBState) (u : Utxo) (a sk : String)
    (h : st.seen.contains (utxoId u) = false)
    (hq : qualifies PRICE u = true)
    (hres : env.resolve = ResolveOutcome.ok (some a))
    (hsk : skOf a = some sk)
    (hst : mintsHasStake st.mints sk = true) :
    processDeposit skOf PRICE env st u
      = ({ st with seen := insertSeen st.seen (utxoId u) }, .seenAlreadyEntitled) := by
  simp [processDeposit, not_mem_of_contains_eq_false h, hq, hres, hsk, hst]

theorem processDeposit_mintThrew (skOf : String → Option String) (PRICE : Int)
    (env : DepositEnv) (st : DBState) (u : Utxo) (a sk : String)
    (h : st.seen.contains (utxoId u) = false)
    (hq : qualifies PRICE u = true)
    (hres : env.resolve = ResolveOutcome.ok (some a))
    (hsk : skOf a = some sk)
    (hst : mintsHasStake st.mints sk = false)
    (hpaid : mintsHasPaidTx st.mints u.tx_hash = false)
    (hissue : env.issue = none) :
    processDeposit skOf PRICE env st u
      = ({ st with
             mints := st.mints ++ [⟨sk, a, u.tx_hash, none, none⟩] },
         .mintFailed) := by
  have hm : mintAndSend env.issue env.design st.mints a sk u.tx_hash
      = (st.mints ++ [⟨sk, a, u.tx_hash, none, none⟩], Except.error ()) := by
    rw [hissue]
    exact mintAndSend_fresh none env.design st.mints a sk u.tx_hash hst hpaid
  simp [processDeposit, not_mem_of_contains_eq_false h, hq, hres, hsk, hst, hm]

theorem processDeposit_mintOk (skOf : String → Option String) (PRICE : Int)
    (env : DepositEnv) (st : DBState) (u : Utxo) (a sk txHash : String)
    (h : st.seen.contains (utxoId u) = false)
    (hq : qualifies PRICE u = true)
    (hres : env.resolve = ResolveOutcome.ok (some a))
    (hsk : skOf a = some sk)
    (hst : mintsHasStake st.mints sk = false)
    (hpaid : mintsHasPaidTx st.mints u.tx_hash = false)
    (hissue : env.issue = some txHash) :
    processDeposit skOf PRICE env st u
      = ({ mints := markFulfilled (st.mints ++ [⟨sk, a, u.tx_hash, none, none⟩])
                      txHash env.design u.tx_hash,
           seen := insertSeen st.seen (utxoId u) },
         .seenProcessed (some txHash)) := by
  have hm : mintAndSend env.issue env.design st.mints a sk u.tx_hash
      = (markFulfilled (st.mints ++ [⟨sk, a, u.tx_hash, none, none⟩])
           txHash env.design u.tx_hash,
         Except.ok (some txHash)) := by
    rw [hissue]
    exact mintAndSend_fresh (some txHash) env.design st.mints a sk u.tx_hash hst hpaid
  simp [processDeposit, not_mem_of_contains_eq_false h, hq, hres, hsk, hst, hm]

/-- Only a resolution transport error can abort the page loop: under any
other collaborator behaviour the step ends in `continue` or a caught
`mintAndSend` throw. -/
theorem stepAborts_processDeposit (skOf : String → Option String) (PRICE : Int)
    (env : DepositEnv) (st : DBState) (u : Utxo)
    (h : env.resolve ≠ ResolveOutcome.transportError) :
    stepAborts (processDeposit skOf PRICE env st u).2 = false := by
  simp only [processDeposit]
  split
  · rfl
  split
  · rfl
  split
  · next heq => exact absurd heq h
  · rfl
  · split
    · rfl
    split
    · rfl
    split
    · rfl
    · rfl

/-- If no deposit of the page triggers a resolution transport error, the
loop reaches every deposit of the page: the outcome list covers the page
deposit-for-deposit. -/
theorem scanPage_map_fst (skOf : String → Option String) (PRICE : Int) :
    ∀ (page : List (Utxo × DepositEnv)) (st : DBState),
      (∀ p ∈ page, p.2.resolve ≠ ResolveOutcome.transportError) →
      (scanPage skOf PRICE st page).2.map Prod.fst = page.map Prod.fst := by
  intro page
  induction page with
  | nil => intro st _; rfl
  | cons p rest ih =>
      intro st hall
      obtain ⟨u, env⟩ := p
      have hna := stepAborts_processDeposit skOf PRICE env st u
        (hall _ (List.mem_cons_self _ _))
      simp only [scanPage, hna, Bool.false_eq_true, if_false, List.map_cons]
      rw [ih _ (fun x hx => hall x (List.mem_cons_of_mem _ hx))]

/-- The seen-set after one step is the old one or the old one with the
deposit identifier appended (the `INSERT OR IGNORE`). -/
theorem processDeposit_seen_eq (skOf : String → Option String) (PRICE : Int)
    (env : DepositEnv) (st : DBState) (u : Utxo) :
    (processDeposit skOf PRICE env st u).1.seen = st.seen
    ∨ (processDeposit skOf PRICE env st u).1.seen
        = insertSeen st.seen (utxoId u) := by
  simp only [processDeposit]
  split
  · exact Or.inl rfl
  split
  · exact Or.inr rfl
  split
  · exact Or.inl rfl
  · exact Or.inr rfl
  · split
    · exact Or.inr rfl
    split
    · exact Or.inr rfl
    split
    · exact Or.inl rfl
    · exact Or.inr rfl

theorem insertSeen_nodup {s : List String} (id : String) (h : s.Nodup) :
    (insertSeen s id).Nodup := by
  unfold insertSeen
  split
  · exact h
  · next hc =>
      have hid : id ∉ s := by simpa using hc
      simp [List.nodup_append, h, hid]

theorem processDeposit_seen_nodup (skOf : String → Option String) (PRICE : Int)
    (env : DepositEnv) (st : DBState) (u : Utxo) (h : st.seen.Nodup) :
    (processDeposit skOf PRICE env st u).1.seen.Nodup := by
  rcases processDeposit_seen_eq skOf PRICE env st u with he | he <;> rw [he]
  · exact h
  · exact insertSeen_nodup _ h

theorem scanPage_seen_nodup (skOf : String → Option String) (PRICE : Int) :
    ∀ (page : List (Utxo × DepositEnv)) (st : DBState), st.seen.Nodup →
      (scanPage skOf PRICE st page).1.seen.Nodup := by
  intro page
  induction page with
  | nil => intro st h; exact h
  | cons p rest ih =>
      intro st h
      obtain ⟨u, env⟩ := p
      simp only [scanPage]
      split
      · exact processDeposit_seen_nodup skOf PRICE env st u h
      · exact ih _ (processDeposit_seen_nodup skOf PRICE env st u h)

theorem runPasses_seen_nodup (skOf : String → Option String) (PRICE : Int) :
    ∀ (passes : List (List (Utxo × DepositEnv))) (st : DBState), st.seen.Nodup →
      (runPasses skOf PRICE st passes).seen.Nodup := by
  intro passes
  induction passes with
  | nil => intro st h; exact h
  | cons p ps ih =>
      intro st h
      exact ih _ (scanPage_seen_nodup skOf PRICE p st h)

/-- C3 counterexample: PRICE 5, empty stores, a qualifying deposit
"t1"#0 whose payer resolves and whose issuance throws.  The claim insert
succeeds (the pending row is in the table afterwards) yet the seen-set is
still empty at the end of the step: the deposit is NOT marked seen when
fulfilment fails, contradicting the claim. -/
theorem seen_on_mint_failure_cex :
    processDeposit (fun _ => some "sk1") 5
        ⟨ResolveOutcome.ok (some "a1"), none, "d"⟩
        ⟨[], []⟩ ⟨"t1", 0, [⟨"lovelace", 5⟩]⟩
      = (⟨[⟨"sk1", "a1", "t1", none, none⟩], []⟩, StepOutcome.mintFailed) := by
  rfl

/-- C3 amended: on a fresh claim the deposit is marked seen in the same
step when `mintAndSend` returns normally (issuance succeeded); when
issuance throws, the deposit is NOT marked seen in that step — the claimed
row persists, and reprocessing the same deposit on a later pass routes it
through the already-entitled branch, which marks it seen without invoking
issuance. -/
theorem seen_mark_after_fulfillment (skOf : String → Option String)
    (PRICE : Int) (envS envF env2 : DepositEnv) (st : DBState) (u : Utxo)
    (a sk txHash : String)
    (hseen : st.seen.contains (utxoId u) = false)
    (hq : qualifies PRICE u = true)
    (hresS : envS.resolve = ResolveOutcome.ok (some a))
    (hissueS : envS.issue = some txHash)
    (hresF : envF.resolve = ResolveOutcome.ok (some a))
    (hissueF : envF.issue = none)
    (hres2 : env2.resolve = ResolveOutcome.ok (some a))
    (hsk : skOf a = some sk)
    (hst : mintsHasStake st.mints sk = false)
    (hpaid : mintsHasPaidTx st.mints u.tx_hash = false) :
    (processDeposit skOf PRICE envS st u).1.seen.contains (utxoId u) = true
    ∧ (processDeposit skOf PRICE envF st u).1.seen = st.seen
    ∧ processDeposit skOf PRICE env2 (processDeposit skOf PRICE envF st u).1 u
        = (⟨st.mints ++ [⟨sk, a, u.tx_hash, none, none⟩],
            insertSeen st.seen (utxoId u)⟩, StepOutcome.seenAlreadyEntitled) := by
  have hS := processDeposit_mintOk skOf PRICE envS st u a sk txHash
    hseen hq hresS hsk hst hpaid hissueS
  have hF := processDeposit_mintThrew skOf PRICE envF st u a sk
    hseen hq hresF hsk hst hpaid hissueF
  refine ⟨?_, ?_, ?_⟩
  · rw [hS]
    exact insertSeen_contains_self st.seen (utxoId u)
  · rw [hF]
  · rw [hF]
    exact processDeposit_alreadyEntitled skOf PRICE env2 _ u a sk
      hseen hq hres2 hsk
      (by exact mintsHasStake_append_self st.mints sk a u.tx_hash)

/-- C4 counterexample: PRICE 5, empty stores, a page of two qualifying
deposits.  The first deposit's input lookup throws; the second deposit —
which would resolve and mint — is never examined in that pass: the scan
ends with only the first deposit's outcome and a completely unchanged
state, contradicting the claim that remaining deposits of the page are
still processed. -/
theorem page_abort_cex :
    scanPage (fun _ => some "sk2") 5 ⟨[], []⟩
        [(⟨"t1", 0, [⟨"lovelace", 5⟩]⟩,
          ⟨ResolveOutcome.transportError, none, "d"⟩),
         (⟨"t2", 0, [⟨"lovelace", 5⟩]⟩,
          ⟨ResolveOutcome.ok (some "a2"), some "h2", "d"⟩)]
      = (⟨[], []⟩,
         [(⟨"t1", 0, [⟨"lovelace", 5⟩]⟩, StepOutcome.abortResolve)]) := by
  rfl

/-- C4 amended: a failure of the fulfilment step (`mintAndSend` throwing)
for one deposit does not abort the page — whenever no deposit of the page
hits a resolution transport error, every deposit of the page is examined,
whatever the issuance outcomes.  A transport failure from the input-lookup
call, however, aborts the pass: the loop stops at the failing deposit with
the state unchanged, and the remaining deposits are only retried on a
later poll. -/
theorem page_failure_isolation (skOf : String → Option String) (PRICE : Int)
    (st st2 : DBState) (page rest : List (Utxo × DepositEnv))
    (u : Utxo) (env : DepositEnv)
    (hall : ∀ p ∈ page, p.2.resolve ≠ ResolveOutcome.transportError)
    (hseen : st2.seen.contains (utxoId u) = false)
    (hq : qualifies PRICE u = true)
    (hres : env.resolve = ResolveOutcome.transportError) :
    (scanPage skOf PRICE st page).2.map Prod.fst = page.map Prod.fst
    ∧ scanPage skOf PRICE st2 ((u, env) :: rest)
        = (st2, [(u, StepOutcome.abortResolve)]) := by
  constructor
  · exact scanPage_map_fst skOf PRICE page st hall
  · have habort := processDeposit_abort skOf PRICE env st2 u hseen hq hres
    simp [scanPage, habort, stepAborts]

/-- C5: a resolution transport error on a qualifying, unseen deposit
leaves the state exactly unchanged — the identifier is not in the seen-set
and no entitlement row is created — and a later pass in which resolution
succeeds processes the deposit normally (claim inserted, issuance invoked,
row fulfilled, deposit marked seen). -/
theorem resolver_transient_failure (skOf : String → Option String)
    (PRICE : Int) (env env2 : DepositEnv) (st : DBState) (u : Utxo)
    (a sk txHash : String)
    (hseen : st.seen.contains (utxoId u) = false)
    (hq : qualifies PRICE u = true)
    (hres : env.resolve = ResolveOutcome.transportError)
    (hres2 : env2.resolve = ResolveOutcome.ok (some a))
    (hsk : skOf a = some sk)
    (hst : mintsHasStake st.mints sk = false)
    (hpaid : mintsHasPaidTx st.mints u.tx_hash = false)
    (hissue2 : env2.issue = some txHash) :
    processDeposit skOf PRICE env st u = (st, StepOutcome.abortResolve)
    ∧ processDeposit skOf PRICE env2 st u
        = (⟨markFulfilled (st.mints ++ [⟨sk, a, u.tx_hash, none, none⟩])
              txHash env2.design u.tx_hash,
            insertSeen st.seen (utxoId u)⟩,
           StepOutcome.seenProcessed (some txHash)) := by
  constructor
  · exact processDeposit_abort skOf PRICE env st u hseen hq hres
  · exact processDeposit_mintOk skOf PRICE env2 st u a sk txHash
      hseen hq hres2 hsk hst hpaid hissue2

/-- C6: a structurally disqualified deposit — classifier rejection, no
first-input payer address, or no staking credential derivable from the
payer address — is marked seen in the same step, leaves the mints table
untouched, invokes no issuance, and once seen is skipped immediately on
every later pass. -/
theorem structural_disqualification (skOf : String → Option String)
    (PRICE : Int) (env env2 : DepositEnv) (st st2 : DBState) (u : Utxo)
    (hseen : st.seen.contains (utxoId u) = false)
    (hcase : qualifies PRICE u = false
       ∨ env.resolve = ResolveOutcome.ok none
       ∨ ∃ a, env.resolve = ResolveOutcome.ok (some a) ∧ skOf a = none)
    (hseen2 : st2.seen.contains (utxoId u) = true) :
    (processDeposit skOf PRICE env st u).1.mints = st.mints
    ∧ (processDeposit skOf PRICE env st u).1.seen.contains (utxoId u) = true
    ∧ issuanceInvoked (processDeposit skOf PRICE env st u).2 = false
    ∧ processDeposit skOf PRICE env2 st2 u = (st2, StepOutcome.skippedSeen) := by
  have hlast := processDeposit_skipped skOf PRICE env2 st2 u hseen2
  by_cases hq : qualifies PRICE u = true
  · rcases hcase with hcq | hres | ⟨a, hres, hsk⟩
    · rw [hcq] at hq
      exact absurd hq (by simp)
    · rw [processDeposit_noPayer skOf PRICE env st u hseen hq hres]
      exact ⟨rfl, insertSeen_contains_self st.seen (utxoId u), rfl, hlast⟩
    · rw [processDeposit_noStakeKey skOf PRICE env st u a hseen hq hres hsk]
      exact ⟨rfl, insertSeen_contains_self st.seen (utxoId u), rfl, hlast⟩
  · have hq' : qualifies PRICE u = false := by simpa using hq
    rw [processDeposit_notQualify skOf PRICE env st u hseen hq']
    exact ⟨rfl, insertSeen_contains_self st.seen (utxoId u), rfl, hlast⟩

/-- C8: across any sequence of passes the seen-set keeps each deposit
identifier at most once (the write-once `INSERT OR IGNORE` on the primary
key preserves freedom from duplicates), and a deposit already in the
seen-set is skipped immediately: its step performs no classification,
resolution, claim or fulfilment work and leaves the state untouched. -/
theorem seen_write_once (skOf : String → Option String) (PRICE : Int)
    (st st2 : DBState) (passes : List (List (Utxo × DepositEnv)))
    (env : DepositEnv) (u : Utxo)
    (hnd : st.seen.Nodup)
    (hseen : st2.seen.contains (utxoId u) = true) :
    (runPasses skOf PRICE st passes).seen.Nodup
    ∧ processDeposit skOf PRICE env st2 u = (st2, StepOutcome.skippedSeen) :=
  ⟨runPasses_seen_nodup skOf PRICE passes st hnd,
   processDeposit_skipped skOf PRICE env st2 u hseen⟩

/-- C9: when issuance throws after a fresh claim, the just-inserted row
stays in the table in pending state (`minted_tx` and `asset_name` still
NULL) — the claim is not released — and a later qualifying deposit
resolving to the same identity takes the already-entitled branch: it is
marked seen and no issuance is invoked for it. -/
theorem issuance_failure_keeps_claim (skOf : String → Option String)
    (PRICE : Int) (env env2 : DepositEnv) (st : DBState) (u u2 : Utxo)
    (a sk : String)
    (hseen : st.seen.contains (utxoId u) = false)
    (hq : qualifies PRICE u = true)
    (hres : env.resolve = ResolveOutcome.ok (some a))
    (hsk : skOf a = some sk)
    (hst : mintsHasStake st.mints sk = false)
    (hpaid : mintsHasPaidTx st.mints u.tx_hash = false)
    (hissue : env.issue = none)
    (hseen2 : st.seen.contains (utxoId u2) = false)
    (hq2 : qualifies PRICE u2 = true)
    (hres2 : env2.resolve = ResolveOutcome.ok (some a)) :
    processDeposit skOf PRICE env st u
      = (⟨st.mints ++ [⟨sk, a, u.tx_hash, none, none⟩], st.seen⟩,
         StepOutcome.mintFailed)
    ∧ processDeposit skOf PRICE env2 (processDeposit skOf PRICE env st u).1 u2
        = (⟨st.mints ++ [⟨sk, a, u.tx_hash, none, none⟩],
            insertSeen st.seen (utxoId u2)⟩, StepOutcome.seenAlreadyEntitled) := by
  have hF := processDeposit_mintThrew skOf PRICE env st u a sk
    hseen hq hres hsk hst hpaid hissue
  refine ⟨hF, ?_⟩
  rw [hF]
  exact processDeposit_alreadyEntitled skOf PRICE env2 _ u2 a sk
    hseen2 hq2 hres2 hsk
    (mintsHasStake_append_self st.mints sk a u.tx_hash)

/-- C10: for a qualifying deposit whose transaction id is already claimed
under a different identity, the `INSERT OR IGNORE` inserts nothing
(UNIQUE(paid_tx) conflicts), `mintAndSend` returns through the duplicate
branch — no design selection, no issuance — and the fresh identity ends up
with no entitlement row at all. -/
theorem paid_tx_duplicate_blocks_new_identity (issue : Option String)
    (design : String) (m : Mints) (pa sk ptx : String)
    (hstake : mintsHasStake m sk = false)
    (hpaid : mintsHasPaidTx m ptx = true) :
    mintAndSend issue design m pa sk ptx = (m, Except.ok none)
    ∧ countStake m sk = 0 :=
  ⟨mintAndSend_duplicate issue design m pa sk ptx (Or.inr hpaid),
   countStake_of_not_hasStake m sk hstake⟩

/-! ### Concrete witnesses -/

/-- Witness for C1 at two calls for stake "sk1" on an empty table. -/
theorem claim_exactly_once_witness :
    ((runCalls [] [⟨"a1", "sk1", "t1", some "h1", "d1"⟩,
                   ⟨"a2", "sk1", "t2", none, "d2"⟩]).2.filter isFresh).length = 1
    ∧ (runCalls [] [⟨"a1", "sk1", "t1", some "h1", "d1"⟩,
                    ⟨"a2", "sk1", "t2", none, "d2"⟩]).2.tail
        = ([⟨"a1", "sk1", "t1", some "h1", "d1"⟩,
            ⟨"a2", "sk1", "t2", none, "d2"⟩] : List MintCall).tail.map
            (fun _ => Except.ok none)
    ∧ countStake (runCalls [] [⟨"a1", "sk1", "t1", some "h1", "d1"⟩,
                               ⟨"a2", "sk1", "t2", none, "d2"⟩]).1 "sk1" = 1 :=
  claim_exactly_once [] "sk1"
    [⟨"a1", "sk1", "t1", some "h1", "d1"⟩, ⟨"a2", "sk1", "t2", none, "d2"⟩]
    (by decide) (by decide) (by decide) (by decide)

/-- Witness for the amended C3 at a concrete qualifying deposit. -/
theorem seen_mark_after_fulfillment_witness :
    (processDeposit (fun _ => some "sk1") 5
        ⟨ResolveOutcome.ok (some "a1"), some "hS", "d"⟩
        ⟨[], []⟩ ⟨"t1", 0, [⟨"lovelace", 5⟩]⟩).1.seen.contains
        (utxoId ⟨"t1", 0, [⟨"lovelace", 5⟩]⟩) = true
    ∧ (processDeposit (fun _ => some "sk1") 5
        ⟨ResolveOutcome.ok (some "a1"), none, "d"⟩
        ⟨[], []⟩ ⟨"t1", 0, [⟨"lovelace", 5⟩]⟩).1.seen = ([] : List String)
    ∧ processDeposit (fun _ => some "sk1") 5
        ⟨ResolveOutcome.ok (some "a1"), some "h2", "d"⟩
        (processDeposit (fun _ => some "sk1") 5
          ⟨ResolveOutcome.ok (some "a1"), none, "d"⟩
          ⟨[], []⟩ ⟨"t1", 0, [⟨"lovelace", 5⟩]⟩).1
        ⟨"t1", 0, [⟨"lovelace", 5⟩]⟩
        = (⟨[] ++ [⟨"sk1", "a1", "t1", none, none⟩],
            insertSeen [] (utxoId ⟨"t1", 0, [⟨"lovelace", 5⟩]⟩)⟩,
           StepOutcome.seenAlreadyEntitled) :=
  seen_mark_after_fulfillment (fun _ => some "sk1") 5
    ⟨ResolveOutcome.ok (some "a1"), some "hS", "d"⟩
    ⟨ResolveOutcome.ok (some "a1"), none, "d"⟩
    ⟨ResolveOutcome.ok (some "a1"), some "h2", "d"⟩
    ⟨[], []⟩ ⟨"t1", 0, [⟨"lovelace", 5⟩]⟩ "a1" "sk1" "hS"
    (by decide) (by decide) (by decide) (by decide) (by decide) (by decide)
    (by decide) (by decide) (by decide) (by decide)

/-- Witness for the amended C4: a page whose only deposit has a failing
issuance is fully examined; a page headed by a resolution transport error
stops at that deposit. -/
theorem page_failure_isolation_witness :
    (scanPage (fun _ => some "sk2") 5 ⟨[], []⟩
        [(⟨"t2", 0, [⟨"lovelace", 5⟩]⟩,
          ⟨ResolveOutcome.ok (some "a2"), none, "d"⟩)]).2.map Prod.fst
      = ([(⟨"t2", 0, [⟨"lovelace", 5⟩]⟩,
           (⟨ResolveOutcome.ok (some "a2"), none, "d"⟩ : DepositEnv))]).map Prod.fst
    ∧ scanPage (fun _ => some "sk2") 5 ⟨[], []⟩
        [(⟨"t1", 0, [⟨"lovelace", 5⟩]⟩,
          ⟨ResolveOutcome.transportError, none, "d"⟩)]
        = (⟨[], []⟩,
           [(⟨"t1", 0, [⟨"lovelace", 5⟩]⟩, StepOutcome.abortResolve)]) :=
  page_failure_isolation (fun _ => some "sk2") 5 ⟨[], []⟩ ⟨[], []⟩
    [(⟨"t2", 0, [⟨"lovelace", 5⟩]⟩, ⟨ResolveOutcome.ok (some "a2"), none, "d"⟩)]
    [] ⟨"t1", 0, [⟨"lovelace", 5⟩]⟩ ⟨ResolveOutcome.transportError, none, "d"⟩
    (by decide) (by decide) (by decide) (by decide)

/-- Witness for C5 at a concrete qualifying deposit. -/
theorem resolver_transient_failure_witness :
    processDeposit (fun _ => some "sk1") 5
        ⟨ResolveOutcome.transportError, none, "d"⟩
        ⟨[], []⟩ ⟨"t1", 0, [⟨"lovelace", 5⟩]⟩
      = (⟨[], []⟩, StepOutcome.abortResolve)
    ∧ processDeposit (fun _ => some "sk1") 5
        ⟨ResolveOutcome.ok (some "a1"), some "h1", "dX"⟩
        ⟨[], []⟩ ⟨"t1", 0, [⟨"lovelace", 5⟩]⟩
        = (⟨markFulfilled ([] ++ [⟨"sk1", "a1", "t1", none, none⟩])
              "h1" "dX" "t1",
            insertSeen [] (utxoId ⟨"t1", 0, [⟨"lovelace", 5⟩]⟩)⟩,
           StepOutcome.seenProcessed (some "h1")) :=
  resolver_transient_failure (fun _ => some "sk1") 5
    ⟨ResolveOutcome.transportError, none, "d"⟩
    ⟨ResolveOutcome.ok (some "a1"), some "h1", "dX"⟩
    ⟨[], []⟩ ⟨"t1", 0, [⟨"lovelace", 5⟩]⟩ "a1" "sk1" "h1"
    (by decide) (by decide) (by decide) (by decide) (by decide) (by decide)
    (by decide) (by decide)

/-- Witness for C6 at a deposit whose transaction has no first-input payer
address. -/
theorem structural_disqualification_witness :
    (processDeposit (fun _ => some "sk1") 5
        ⟨ResolveOutcome.ok none, none, "d"⟩
        ⟨[], []⟩ ⟨"t1", 0, [⟨"lovelace", 5⟩]⟩).1.mints = ([] : Mints)
    ∧ (processDeposit (fun _ => some "sk1") 5
        ⟨ResolveOutcome.ok none, none, "d"⟩
        ⟨[], []⟩ ⟨"t1", 0, [⟨"lovelace", 5⟩]⟩).1.seen.contains
        (utxoId ⟨"t1", 0, [⟨"lovelace", 5⟩]⟩) = true
    ∧ issuanceInvoked (processDeposit (fun _ => some "sk1") 5
        ⟨ResolveOutcome.ok none, none, "d"⟩
        ⟨[], []⟩ ⟨"t1", 0, [⟨"lovelace", 5⟩]⟩).2 = false
    ∧ processDeposit (fun _ => some "sk1") 5
        ⟨ResolveOutcome.transportError, none, "d"⟩
        ⟨[], ["t1#0"]⟩ ⟨"t1", 0, [⟨"lovelace", 5⟩]⟩
        = (⟨[], ["t1#0"]⟩, StepOutcome.skippedSeen) :=
  structural_disqualification (fun _ => some "sk1") 5
    ⟨ResolveOutcome.ok none, none, "d"⟩
    ⟨ResolveOutcome.transportError, none, "d"⟩
    ⟨[], []⟩ ⟨[], ["t1#0"]⟩ ⟨"t1", 0, [⟨"lovelace", 5⟩]⟩
    (by decide) (Or.inr (Or.inl (by decide))) (by decide)

/-- Witness for C8: the same deposit fed through two passes. -/
theorem seen_write_once_witness :
    (runPasses (fun _ => some "sk1") 5 ⟨[], []⟩
        [[(⟨"t1", 0, [⟨"lovelace", 5⟩]⟩,
           ⟨ResolveOutcome.ok (some "a1"), some "h1", "d"⟩)],
         [(⟨"t1", 0, [⟨"lovelace", 5⟩]⟩,
           ⟨ResolveOutcome.ok (some "a1"), some "h1", "d"⟩)]]).seen.Nodup
    ∧ processDeposit (fun _ => some "sk1") 5
        ⟨ResolveOutcome.ok (some "a1"), some "h1", "d"⟩
        ⟨[], ["t1#0"]⟩ ⟨"t1", 0, [⟨"lovelace", 5⟩]⟩
        = (⟨[], ["t1#0"]⟩, StepOutcome.skippedSeen) :=
  seen_write_once (fun _ => some "sk1") 5 ⟨[], []⟩ ⟨[], ["t1#0"]⟩
    [[(⟨"t1", 0, [⟨"lovelace", 5⟩]⟩,
       ⟨ResolveOutcome.ok (some "a1"), some "h1", "d"⟩)],
     [(⟨"t1", 0, [⟨"lovelace", 5⟩]⟩,
       ⟨ResolveOutcome.ok (some "a1"), some "h1", "d"⟩)]]
    ⟨ResolveOutcome.ok (some "a1"), some "h1", "d"⟩
    ⟨"t1", 0, [⟨"lovelace", 5⟩]⟩
    (by decide) (by decide)

/-- Witness for C9: issuance throws on deposit "t1", the pending row stays,
and the later deposit "t2" of the same identity is already-entitled. -/
theorem issuance_failure_keeps_claim_witness :
    processDeposit (fun _ => some "sk1") 5
        ⟨ResolveOutcome.ok (some "a1"), none, "d"⟩
        ⟨[], []⟩ ⟨"t1", 0, [⟨"lovelace", 5⟩]⟩
      = (⟨[] ++ [⟨"sk1", "a1", "t1", none, none⟩], []⟩, StepOutcome.mintFailed)
    ∧ processDeposit (fun _ => some "sk1") 5
        ⟨ResolveOutcome.ok (some "a1"), some "h2", "d2"⟩
        (processDeposit (fun _ => some "sk1") 5
          ⟨ResolveOutcome.ok (some "a1"), none, "d"⟩
          ⟨[], []⟩ ⟨"t1", 0, [⟨"lovelace", 5⟩]⟩).1
        ⟨"t2", 0, [⟨"lovelace", 5⟩]⟩
        = (⟨[] ++ [⟨"sk1", "a1", "t1", none, none⟩],
            insertSeen [] (utxoId ⟨"t2", 0, [⟨"lovelace", 5⟩]⟩)⟩,
           StepOutcome.seenAlreadyEntitled) :=
  issuance_failure_keeps_claim (fun _ => some "sk1") 5
    ⟨ResolveOutcome.ok (some "a1"), none, "d"⟩
    ⟨ResolveOutcome.ok (some "a1"), some "h2", "d2"⟩
    ⟨[], []⟩ ⟨"t1", 0, [⟨"lovelace", 5⟩]⟩ ⟨"t2", 0, [⟨"lovelace", 5⟩]⟩
    "a1" "sk1"
    (by decide) (by decide) (by decide) (by decide) (by decide) (by decide)
    (by decide) (by decide) (by decide) (by decide)

/-- Witness for C10: transaction "t1" is already claimed by identity "skA";
a qualifying attempt for fresh identity "skB" on the same transaction
inserts nothing and issues nothing. -/
theorem paid_tx_duplicate_witness :
    mintAndSend (some "h") "d" [⟨"skA", "aA", "t1", none, none⟩]
        "aB" "skB" "t1"
      = ([⟨"skA", "aA", "t1", none, none⟩], Except.ok none)
    ∧ countStake [⟨"skA", "aA", "t1", none, none⟩] "skB" = 0 :=
  paid_tx_duplicate_blocks_new_identity (some "h") "d"
    [⟨"skA", "aA", "t1", none, none⟩] "aB" "skB" "t1"
    (by decide) (by decide)

end MintID
